import Mathlib

set_option maxRecDepth 8000

/-! Verification of the stream-processing pipeline (`src/process_streams.py`).

Modelling conventions: instants are `Int` seconds on the absolute (UTC)
timeline, the way Python compares timezone-aware `datetime` values; Python
`set` objects are modelled as duplicate-free `List String` (only membership
is ever observed); Python dicts keep insertion order and are modelled as
association lists. -/

/-- The outcome of one HTTP HEAD probe (`requests.head`, line 52): either a
response carrying a status code, or one of the failure modes that the
`requests` library raises as a `requests.RequestException` subclass
(timeout, connection error, malformed response). -/
inductive ProbeOutcome where
  | response (statusCode : Nat)
  | timeout
  | connectionError
  | malformedResponse
deriving DecidableEq, Repr

/-- `check_stream_status` (lines 46-59): `True` iff a response arrived with a
status code in `[200, 400)`; every `requests.RequestException` is caught and
collapsed to `False`.  The function is total: no probe failure escapes as an
exception to the caller. -/
def check_stream_status (o : ProbeOutcome) : Bool :=
  match o with
  | .response statusCode => decide (200 ≤ statusCode ∧ statusCode < 400)
  | .timeout => false
  | .connectionError => false
  | .malformedResponse => false

/-- Numeric value of a decimal digit character, `none` otherwise. -/
def digitVal (c : Char) : Option Nat :=
  if c.isDigit then some (c.toNat - 48) else none

/-- Two decimal digits plus the remaining characters. -/
def take2 : List Char → Option (Nat × List Char)
  | a :: b :: rest => do
    let x ← digitVal a
    let y ← digitVal b
    some (10 * x + y, rest)
  | _ => none

/-- Drop one leading colon if present (the optional `:` of `%z`). -/
def stripColon : List Char → List Char
  | ':' :: rest => rest
  | cs => cs

/-- The `%z` directive of `datetime.strptime`: `Z`, or a sign followed by
`HHMM`, `HH:MM`, `HHMMSS` or `HH:MM:SS` (fractional-second offsets are not
modelled).  The resulting offset, in seconds, must be strictly below 24
hours in magnitude or `datetime.timezone` raises `ValueError`. -/
def parseOffsetSeconds (cs : List Char) : Option Int :=
  match cs with
  | ['Z'] => some 0
  | sg :: rest =>
    if sg = '+' ∨ sg = '-' then do
      let (hh, r1) ← take2 rest
      let (mm, r2) ← take2 (stripColon r1)
      let ss ← (match r2 with
        | [] => some 0
        | _ => do
          let (s2, r3) ← take2 (stripColon r2)
          if r3 = [] then some s2 else none)
      let total := hh * 3600 + mm * 60 + ss
      if total < 24 * 3600 then
        some (if sg = '+' then (total : Int) else -(total : Int))
      else none
    else none
  | _ => none

/-- Gregorian leap-year test. -/
def isLeapYear (y : Nat) : Bool := (y % 4 == 0 && y % 100 != 0) || y % 400 == 0

/-- Length of a month, as `datetime` validates the day field. -/
def daysInMonth (y m : Nat) : Nat :=
  if m = 2 then (if isLeapYear y then 29 else 28)
  else if m = 4 ∨ m = 6 ∨ m = 9 ∨ m = 11 then 30
  else 31

/-- Days since 1970-01-01 of a proleptic-Gregorian civil date (valid for
`1 ≤ y ≤ 9999`, which the parser guarantees). -/
def daysFromCivil (y m d : Nat) : Int :=
  let y2 := if m ≤ 2 then y - 1 else y
  let era := y2 / 400
  let yoe := y2 % 400
  let mp := (m + 9) % 12
  let doy := (153 * mp + 2) / 5 + (d - 1)
  let doe := yoe * 365 + yoe / 4 - yoe / 100 + doy
  ((era * 146097 + doe : Nat) : Int) - 719468

/-- `parse_epg_datetime` (lines 38-44): `datetime.strptime(s, '%Y%m%d%H%M%S %z')`,
returned as the instant's UTC epoch seconds, or `none` where Python raises
`ValueError`.  The numeric directives are modelled at their canonical fixed
width (4+2+2+2+2+2 ASCII digits, the width every XMLTV timestamp uses);
CPython's `_strptime` additionally admits 1-digit month/day/hour/minute/
second alternatives, non-ASCII decimal digits, and fractional-second `%z`
offsets, none of which this model accepts — no theorem below relies on a
string being rejected for one of those width reasons.  The literal space of
the format matches a mandatory nonempty whitespace run, as in `_strptime`;
the field bounds (month, day-in-month, hour, minute, second, year ≥ 1) are
the ones `datetime` enforces.  A string with a parsable zone offset is
normalized to the absolute timeline here, before any comparison; a string
without one yields `none`. -/
def parse_epg_datetime (date_str : String) : Option Int :=
  match date_str.toList with
  | c1 :: c2 :: c3 :: c4 :: c5 :: c6 :: c7 :: c8 :: c9 :: c10 :: c11 :: c12 :: c13 :: c14 :: w :: rest =>
    if w.isWhitespace then
      (do
        let y1 ← digitVal c1
        let y2 ← digitVal c2
        let y3 ← digitVal c3
        let y4 ← digitVal c4
        let y := 1000 * y1 + 100 * y2 + 10 * y3 + y4
        let (mo, _) ← take2 [c5, c6]
        let (d, _) ← take2 [c7, c8]
        let (h, _) ← take2 [c9, c10]
        let (mi, _) ← take2 [c11, c12]
        let (s, _) ← take2 [c13, c14]
        if 1 ≤ y ∧ 1 ≤ mo ∧ mo ≤ 12 ∧ 1 ≤ d ∧ d ≤ daysInMonth y mo ∧ h ≤ 23 ∧ mi ≤ 59 ∧ s ≤ 59 then do
          let off ← parseOffsetSeconds (rest.dropWhile Char.isWhitespace)
          some (daysFromCivil y mo d * 86400 + ((h * 3600 + mi * 60 + s : Nat) : Int) - off)
        else none)
    else none
  | _ => none

/-- One channel dict built by `parse_m3u` (lines 108-116); a missing
`tvg-id` attribute defaults to the empty string. -/
structure ChannelRec where
  info : String
  url : String
  tvg_id : String
  tvg_name : String
  tvg_logo : String
  group_title : String
  name : String
deriving DecidableEq, Repr

/-- `live_tvg_ids.add` (line 159): Python `set` insertion, on the
duplicate-free-list model of a set. -/
def insertId (ids : List String) (i : String) : List String :=
  if i ∈ ids then ids else ids ++ [i]

/-- The accumulation of lines 152-159 with each channel's verdict
abstracted: `live_channels` (order-preserving) and `live_tvg_ids`
(ids added only when `channel['tvg_id']` is truthy, i.e. nonempty). -/
def buildValidSet : List ChannelRec → List Bool → List ChannelRec × List String
  | c :: cs, v :: vs =>
    let rest := buildValidSet cs vs
    if v then
      (c :: rest.1, if c.tvg_id ≠ "" then insertId rest.2 c.tvg_id else rest.2)
    else rest
  | _, _ => ([], [])

/-- The boolean each submitted future computes (line 150):
`check_stream_status(channel['url'])`. -/
def futuresOf (channels : List ChannelRec) (outcome : String → ProbeOutcome) : List Bool :=
  channels.map (fun c => check_stream_status (outcome c.url))

/-- The completion log of the thread pool: `sched` lists the future indices
in whatever order the executor happens to finish them; each completion
records that future's verdict. -/
def completionLog (channels : List ChannelRec) (outcome : String → ProbeOutcome)
    (sched : List Nat) : List (Nat × Bool) :=
  sched.map (fun i => (i, (futuresOf channels outcome).getD i false))

/-- `future.result()` (line 154): reads slot `i` from the completion log
(the call blocks until the slot is filled, so on a complete schedule the
lookup never misses). -/
def futureResult (log : List (Nat × Bool)) (i : Nat) : Bool :=
  (log.lookup i).getD false

/-- The collection loop of lines 152-154: it iterates `future_to_channel`
in dict insertion order, which is submission order `0, 1, ...`, regardless
of the completion order `sched`. -/
def checkPhase (channels : List ChannelRec) (outcome : String → ProbeOutcome)
    (sched : List Nat) : List Bool :=
  (List.range channels.length).map (futureResult (completionLog channels outcome sched))

/-- Lines 148-159 as a whole: collect the verdicts (in submission order)
and build the live channel list and live id set from them. -/
def livenessPhase (channels : List ChannelRec) (outcome : String → ProbeOutcome)
    (sched : List Nat) : List ChannelRec × List String :=
  buildValidSet channels (checkPhase channels outcome sched)

/-- A `<channel>` element of the EPG tree: `get('id')` may be absent;
`raw` stands for the rest of the element, passed through opaquely. -/
structure ChanElem where
  id : Option String
  raw : String
deriving DecidableEq, Repr

/-- A `<programme>` element of the EPG tree: the `channel` attribute may be
absent; `start`/`stop` are the raw timestamp strings; `title`/`desc` are the
optional child texts (`findtext`). -/
structure ProgElem where
  channel : Option String
  start : String
  stop : String
  title : Option String
  desc : Option String
deriving DecidableEq, Repr

/-- The JSON dict built per programme (lines 208-213); the isoformat
strings of the two aware datetimes are represented by the instants
themselves (isoformat is injective on instants). -/
structure ProgData where
  title : Option String
  desc : Option String
  start : Int
  stop : Int
deriving DecidableEq, Repr

/-- The parsed EPG tree (`epg_root`): its `channel` and `programme`
children in document order. -/
structure EpgRoot where
  channels : List ChanElem
  programmes : List ProgElem
deriving DecidableEq, Repr

/-- The filtered EPG data of step 5 (lines 175-226): the 3-hour JSON bucket
map `epg_data_3h`, the flat 6-hour programme list
`filtered_epg_programmes`, and `filtered_epg_channels`. -/
structure EpgResult where
  epg_data_3h : List (String × List ProgData)
  filtered_epg_programmes : List ProgElem
  filtered_epg_channels : List ChanElem
deriving DecidableEq, Repr

/-- `epg_data_3h[prog_channel].append(prog_data)` with the bucket created
on first insert (lines 217-219), on the association-list model of a dict. -/
def addToBucket : List (String × List ProgData) → String → ProgData → List (String × List ProgData)
  | [], k, v => [(k, [v])]
  | (k1, vs) :: rest, k, v =>
    if k1 = k then (k1, vs ++ [v]) :: rest else (k1, vs) :: addToBucket rest k v

/-- `dict.get(key, [])` on the association-list model. -/
def dictGet : List (String × List ProgData) → String → List ProgData
  | [], _ => []
  | (k1, vs) :: rest, c => if k1 = c then vs else dictGet rest c

/-- The JSON dict a programme contributes, given its parsed instants. -/
def progDataOf (p : ProgElem) : Option ProgData :=
  match parse_epg_datetime p.start, parse_epg_datetime p.stop with
  | some s, some t => some ⟨p.title, p.desc, s, t⟩
  | _, _ => none

/-- The body of the programme loop (lines 191-226) for one `prog_elem`:
skip unless the channel attribute is present and in `live_tvg_ids` (line
195; `None in set` and `'' in set` are both false there), skip if either
timestamp fails to parse (line 202), skip already-ended programmes
(`stop_time > now`, line 206), then append to the 3-hour bucket when
`start_time < limit_3h` and to the flat 6-hour list when
`start_time < limit_6h` (both strict). -/
def progStep (live_tvg_ids : List String) (now limit_3h limit_6h : Int)
    (acc : List (String × List ProgData) × List ProgElem) (p : ProgElem) :
    List (String × List ProgData) × List ProgElem :=
  match p.channel with
  | none => acc
  | some prog_channel =>
    if prog_channel ∈ live_tvg_ids then
      match parse_epg_datetime p.start, parse_epg_datetime p.stop with
      | some start_time, some stop_time =>
        if now < stop_time then
          (if start_time < limit_3h then
             addToBucket acc.1 prog_channel ⟨p.title, p.desc, start_time, stop_time⟩
           else acc.1,
           if start_time < limit_6h then acc.2 ++ [p] else acc.2)
        else acc
      | _, _ => acc
    else acc

/-- Step 5 of `main` (lines 171-226) given a non-`None` `epg_root`: the two
horizons are computed once from the single captured `now`
(`limit_3h = now + 3h`, `limit_6h = now + 6h`), the channels are filtered
by membership of their `id` attribute in `live_tvg_ids`, and the programme
loop folds over the programmes in document order. -/
def prepare_epg_data (live_tvg_ids : List String) (now : Int) (root : EpgRoot) : EpgResult :=
  let limit_3h := now + 3 * 3600
  let limit_6h := now + 6 * 3600
  let filtered_epg_channels := root.channels.filter (fun ch =>
    match ch.id with
    | some i => decide (i ∈ live_tvg_ids)
    | none => false)
  let pr := root.programmes.foldl (progStep live_tvg_ids now limit_3h limit_6h) ([], [])
  ⟨pr.1, pr.2, filtered_epg_channels⟩

/-- One entry of `playlist.json` (lines 262-273). -/
structure JsonEntry where
  name : String
  url : String
  tvg_id : String
  tvg_name : String
  tvg_logo : String
  group_title : String
  epg : List ProgData
deriving DecidableEq, Repr

/-- The four artifacts the run writes (steps 6-8): the channel lines of
`playlist.m3u`, the channels and programmes of `epg.xml` (both empty when
the guide failed and the empty `<tv></tv>` document is written instead),
and the entries of `playlist.json`. -/
structure Outputs where
  playlist_m3u : List (String × String)
  epg_xml_channels : List ChanElem
  epg_xml_programmes : List ProgElem
  playlist_json : List JsonEntry
deriving DecidableEq, Repr

/-- `main` after the M3U has been parsed (lines 143-276): the liveness
phase, the single time capture `now = get_current_utc_time()` (line 171,
modelled by read 0 of the ambient clock stream), the EPG filtering when the
guide was obtained (empty sets otherwise, lines 164-168 and 254-257), and
the three data artifacts.  Nothing on this path aborts: the writes happen
whether or not any channel validated. -/
def mainAfterParse (channels : List ChannelRec) (outcome : String → ProbeOutcome)
    (sched : List Nat) (epg_root : Option EpgRoot) (clock : Nat → Int) : Outputs :=
  let lv := livenessPhase channels outcome sched
  let live_channels := lv.1
  let live_tvg_ids := lv.2
  let now := clock 0
  let eres : EpgResult :=
    match epg_root with
    | some root => prepare_epg_data live_tvg_ids now root
    | none => ⟨[], [], []⟩
  { playlist_m3u := live_channels.map (fun c => (c.info, c.url)),
    epg_xml_channels := eres.filtered_epg_channels,
    epg_xml_programmes := eres.filtered_epg_programmes,
    playlist_json := live_channels.map (fun c =>
      ⟨c.name, c.url, c.tvg_id, c.tvg_name, c.tvg_logo, c.group_title,
        dictGet eres.epg_data_3h c.tvg_id⟩) }

/-- `main` (lines 126-293): the only abort is the fatal `return` when the
source M3U cannot be fetched (lines 135-137); `none` models that abort. -/
def mainRun (m3uFetch : Option (List ChannelRec)) (outcome : String → ProbeOutcome)
    (sched : List Nat) (epg_root : Option EpgRoot) (clock : Nat → Int) : Option Outputs :=
  match m3uFetch with
  | none => none
  | some channels => some (mainAfterParse channels outcome sched epg_root clock)

/-- Looking a key up in an association list built by pairing each key with
`f` of that key returns `f` of the key, whenever the key occurs. -/
lemma lookup_map_pair (f : Nat → Bool) (sched : List Nat) (i : Nat) (h : i ∈ sched) :
    (sched.map (fun j => (j, f j))).lookup i = some (f i) := by
  induction sched with
  | nil => cases h
  | cons j tl ih =>
    by_cases hij : i = j
    · subst hij
      simp [List.lookup]
    · have hb : (i == j) = false := beq_eq_false_iff_ne.mpr hij
      rcases List.mem_cons.mp h with h1 | h1
      · exact absurd h1 hij
      · simp [List.lookup, hb, ih h1]

/-- Reading a list positionally over `range` of its length reproduces it. -/
lemma map_range_getD {α : Type} (l : List α) (d : α) :
    (List.range l.length).map (fun i => l.getD i d) = l := by
  induction l with
  | nil => rfl
  | cons a tl ih =>
    rw [List.length_cons, List.range_succ_eq_map, List.map_cons, List.map_map]
    have hc : ((fun i => (a :: tl).getD i d) ∘ Nat.succ) = fun i => tl.getD i d := by
      funext i
      simp [Function.comp, List.getD_cons_succ]
    rw [List.getD_cons_zero, hc, ih]

/-- Claim C1: the liveness-checking phase produces exactly one boolean
verdict per entry, in the same length and index order as the input, and
the verdict at position `i` is `check_stream_status` of the probe outcome
of `entries[i].url` alone, for every completion order `sched` of the
concurrent probes. -/
theorem liveness_verdicts_positional (channels : List ChannelRec)
    (outcome : String → ProbeOutcome) (sched : List Nat)
    (hs : sched.Perm (List.range channels.length)) :
    checkPhase channels outcome sched
        = channels.map (fun c => check_stream_status (outcome c.url))
    ∧ (checkPhase channels outcome sched).length = channels.length := by
  have h1 : ∀ i ∈ List.range channels.length,
      futureResult (completionLog channels outcome sched) i
        = (futuresOf channels outcome).getD i false := by
    intro i hi
    have hin : i ∈ sched := hs.mem_iff.mpr hi
    unfold futureResult completionLog
    rw [lookup_map_pair (fun j => (futuresOf channels outcome).getD j false) sched i hin]
    rfl
  have h2 : checkPhase channels outcome sched
      = (List.range channels.length).map (fun i => (futuresOf channels outcome).getD i false) := by
    unfold checkPhase
    exact List.map_congr_left h1
  have h4 : channels.length = (futuresOf channels outcome).length := by
    simp [futuresOf]
  have hmain : checkPhase channels outcome sched
      = channels.map (fun c => check_stream_status (outcome c.url)) := by
    rw [h2]
    show _ = futuresOf channels outcome
    rw [h4, map_range_getD]
  refine ⟨hmain, ?_⟩
  rw [hmain, List.length_map]

/-- A concrete three-entry run, completion order fully reversed: entry 1
times out, entry 2 answers 200, entry 3 answers 404; the verdicts still
come out as `[false, true, false]` in submission order. -/
def wEntry1 : ChannelRec := ⟨"#EXTINF:-1,One", "u1", "id1", "One", "", "general", "One"⟩

def wEntry2 : ChannelRec := ⟨"#EXTINF:-1,Two", "u2", "id2", "Two", "", "general", "Two"⟩

def wEntry3 : ChannelRec := ⟨"#EXTINF:-1,Three", "u3", "", "Three", "", "general", "Three"⟩

def wOutcome : String → ProbeOutcome := fun u =>
  if u = "u1" then .timeout else if u = "u2" then .response 200 else .response 404

theorem liveness_verdicts_positional_witness :
    checkPhase [wEntry1, wEntry2, wEntry3] wOutcome [2, 1, 0] = [false, true, false]
    ∧ (checkPhase [wEntry1, wEntry2, wEntry3] wOutcome [2, 1, 0]).length = 3 := by
  have h := liveness_verdicts_positional [wEntry1, wEntry2, wEntry3] wOutcome [2, 1, 0]
    (by decide)
  refine ⟨?_, ?_⟩
  · rw [h.1]
    decide
  · rw [h.2]
    decide

/-- Claim C4: the probe verdict is true exactly when a response arrived
whose status code lies in the inclusive range 200-399; every failure
outcome (timeout, connection error, malformed response) and every status
outside the range yields false, and `check_stream_status` is a total
function — no per-probe failure propagates as an exception. -/
theorem probe_verdict_iff_status_200_399 (o : ProbeOutcome) :
    (check_stream_status o = true
        ↔ ∃ code, o = ProbeOutcome.response code ∧ 200 ≤ code ∧ code ≤ 399)
    ∧ check_stream_status ProbeOutcome.timeout = false
    ∧ check_stream_status ProbeOutcome.connectionError = false
    ∧ check_stream_status ProbeOutcome.malformedResponse = false := by
  refine ⟨?_, rfl, rfl, rfl⟩
  cases o with
  | response code =>
    simp only [check_stream_status, decide_eq_true_eq]
    constructor
    · rintro ⟨h1, h2⟩
      exact ⟨code, rfl, h1, by omega⟩
    · rintro ⟨c2, hc, h1, h2⟩
      obtain rfl : code = c2 := by injection hc
      exact ⟨h1, by omega⟩
  | timeout =>
    simp [check_stream_status]
  | connectionError =>
    simp [check_stream_status]
  | malformedResponse =>
    simp [check_stream_status]

/-- Counterexample to claim C6: a guide timestamp lacking a zone offset is
not "treated as already expressed in a fixed reference zone" — it does not
parse at all.  `datetime.strptime('20230101120000', '%Y%m%d%H%M%S %z')`
raises `ValueError`, which `parse_epg_datetime` turns into `None`, so the
record becomes unusable and is dropped (line 202). -/
theorem missing_offset_unparsable_counterexample :
    parse_epg_datetime "20230101120000" = none := by decide

/-- No character is both a decimal digit and whitespace. -/
lemma digit_not_whitespace (c : Char) (hd : c.isDigit = true) : c.isWhitespace = false := by
  cases hw : c.isWhitespace
  · rfl
  · exfalso
    have h1 : ((c = ' ' ∨ c = '\t') ∨ c = '\x0d') ∨ c = '\n' := by
      simpa [Char.isWhitespace] using hw
    rcases h1 with ((rfl | rfl) | rfl) | rfl <;> exact absurd hd (by decide)

/-- Claim C6 as amended: a guide timestamp with an explicit numeric zone
offset parses to an absolute instant normalized before any comparison
(`"20251117163000 +0100"` and `"20251117153000 +0000"` denote the same
instant), while a string lacking a parsable offset fails to parse and the
record is dropped rather than being read in a fixed reference zone.  The
format's literal space compiles to a mandatory nonempty whitespace run
before the mandatory `%z` offset — in CPython's `_strptime` exactly as
here — so a string consisting entirely of digits (the bare date-time, of
any length) contains no whitespace, hence no offset field, and never
parses; no digit is whitespace under any width or Unicode reading, so this
does not depend on the model's fixed field widths. -/
theorem offset_normalization_and_missing_offset_rejected (s : String)
    (h : ∀ c ∈ s.toList, c.isDigit = true) :
    parse_epg_datetime s = none
    ∧ parse_epg_datetime "20251117163000 +0100"
        = parse_epg_datetime "20251117153000 +0000"
    ∧ (parse_epg_datetime "20251117163000 +0100").isSome = true := by
  refine ⟨?_, by decide, by decide⟩
  unfold parse_epg_datetime
  split
  · next c1 c2 c3 c4 c5 c6 c7 c8 c9 c10 c11 c12 c13 c14 w rest heq =>
    have hw : w ∈ s.toList := by
      rw [heq]
      simp
    rw [digit_not_whitespace w (h w hw)]
    simp
  · rfl

theorem offset_normalization_witness :
    parse_epg_datetime "20991231235959" = none
    ∧ parse_epg_datetime "20251117163000 +0100"
        = parse_epg_datetime "20251117153000 +0000"
    ∧ (parse_epg_datetime "20251117163000 +0100").isSome = true :=
  offset_normalization_and_missing_offset_rejected "20991231235959" (by decide)

/-- All-digit strings of the problematic non-fixed widths too — shorter or
longer than 14 — are refused for the same whitespace reason. -/
theorem offset_missing_any_width :
    parse_epg_datetime "202311111" = none
    ∧ parse_epg_datetime "2023111112345678" = none := by decide

/-- The live channel list is the verdict-true subsequence of the input, in
original relative order. -/
lemma buildValidSet_fst (cs : List ChannelRec) :
    ∀ vs : List Bool,
      (buildValidSet cs vs).1 = ((cs.zip vs).filter (fun cv => cv.2)).map Prod.fst := by
  induction cs with
  | nil => intro vs; rfl
  | cons c cs ih =>
    intro vs
    cases vs with
    | nil => rfl
    | cons v vs =>
      cases v with
      | false => simp [buildValidSet, ih]
      | true => simp [buildValidSet, ih]

/-- Membership after a set insertion. -/
lemma mem_insertId (ids : List String) (j i : String) :
    i ∈ insertId ids j ↔ i ∈ ids ∨ i = j := by
  unfold insertId
  by_cases hj : j ∈ ids
  · simp only [if_pos hj]
    constructor
    · exact Or.inl
    · rintro (h | rfl)
      · exact h
      · exact hj
  · simp [if_neg hj]

/-- `live_tvg_ids` holds exactly the nonempty `tvg_id` values of the live
channel list. -/
lemma buildValidSet_ids_mem (cs : List ChannelRec) :
    ∀ (vs : List Bool) (i : String),
      i ∈ (buildValidSet cs vs).2
        ↔ (i ≠ "" ∧ ∃ c ∈ (buildValidSet cs vs).1, c.tvg_id = i) := by
  induction cs with
  | nil => intro vs i; simp [buildValidSet]
  | cons c cs ih =>
    intro vs i
    cases vs with
    | nil => simp [buildValidSet]
    | cons v vs =>
      cases v with
      | false => simpa [buildValidSet] using ih vs i
      | true =>
        by_cases hid : c.tvg_id = ""
        · simp only [buildValidSet, hid, ne_eq, not_true_eq_false, if_false, if_true]
          rw [ih vs i]
          constructor
          · rintro ⟨hne, x, hx, hxi⟩
            exact ⟨hne, x, List.mem_cons_of_mem _ hx, hxi⟩
          · rintro ⟨hne, x, hx, hxi⟩
            rcases List.mem_cons.mp hx with rfl | hx2
            · exact absurd (hxi.symm.trans hid) hne
            · exact ⟨hne, x, hx2, hxi⟩
        · simp only [buildValidSet, hid, ne_eq, not_false_eq_true, if_true]
          rw [mem_insertId, ih vs i]
          constructor
          · rintro (⟨hne, x, hx, hxi⟩ | rfl)
            · exact ⟨hne, x, List.mem_cons_of_mem _ hx, hxi⟩
            · exact ⟨hid, c, List.mem_cons_self _ _, rfl⟩
          · rintro ⟨hne, x, hx, hxi⟩
            rcases List.mem_cons.mp hx with rfl | hx2
            · exact Or.inr hxi.symm
            · exact Or.inl ⟨hne, x, hx2, hxi⟩

/-- Claim C3: the valid-set builder returns the subsequence of entries at
verdict-true positions, in original relative order, and the id set holds
exactly the channel ids present (i.e. nonempty — an entry lacking one
contributes no id but still appears in the entry list). -/
theorem valid_set_subsequence_and_ids (channels : List ChannelRec) (verdicts : List Bool) :
    (buildValidSet channels verdicts).1
        = ((channels.zip verdicts).filter (fun cv => cv.2)).map Prod.fst
    ∧ ∀ i : String,
        i ∈ (buildValidSet channels verdicts).2
          ↔ (i ≠ "" ∧ ∃ c ∈ (buildValidSet channels verdicts).1, c.tvg_id = i) :=
  ⟨buildValidSet_fst channels verdicts, buildValidSet_ids_mem channels verdicts⟩

/-- Claim C2: a programme with parsable timestamps is dropped from both
result sets when its channel is not in the valid-id set or when
`stop ≤ now`; otherwise it lands in the 3-hour bucket map exactly when
`start < now + 3h` (strict) and in the flat 6-hour list exactly when
`start < now + 6h` (strict).  In particular `stop = now` is excluded
outright, and `start = now + 3h` is excluded from the 3-hour bucket. -/
theorem programme_window_membership (validIds : List String) (now : Int)
    (p : ProgElem) (c : String) (s t : Int)
    (hc : p.channel = some c)
    (hs : parse_epg_datetime p.start = some s)
    (ht : parse_epg_datetime p.stop = some t) :
    (prepare_epg_data validIds now ⟨[], [p]⟩).epg_data_3h
        = (if c ∈ validIds ∧ now < t ∧ s < now + 3 * 3600
           then [(c, [⟨p.title, p.desc, s, t⟩])] else [])
    ∧ (prepare_epg_data validIds now ⟨[], [p]⟩).filtered_epg_programmes
        = (if c ∈ validIds ∧ now < t ∧ s < now + 6 * 3600 then [p] else []) := by
  simp only [prepare_epg_data, List.foldl_cons, List.foldl_nil, List.filter_nil]
  simp only [progStep, hc, hs, ht]
  by_cases hv : c ∈ validIds
  · by_cases hnt : now < t
    · by_cases h3 : s < now + 10800
      · by_cases h6 : s < now + 21600
        · simp [hv, hnt, h3, h6, addToBucket]
        · omega
      · by_cases h6 : s < now + 21600
        · simp [hv, hnt, h3, h6]
        · simp [hv, hnt, h3, h6]
    · simp [hv, hnt]
  · simp [hv]

/-- A programme running 01:00-02:00 UTC on 1970-01-01, on a valid channel,
with `now` the epoch: it lands in both windows. -/
def progA : ProgElem :=
  ⟨some "X", "19700101010000 +0000", "19700101020000 +0000", none, none⟩

theorem programme_window_membership_witness :
    (prepare_epg_data ["X"] 0 ⟨[], [progA]⟩).epg_data_3h
        = (if "X" ∈ ["X"] ∧ (0 : Int) < 7200 ∧ (3600 : Int) < 0 + 3 * 3600
           then [("X", [⟨progA.title, progA.desc, 3600, 7200⟩])] else [])
    ∧ (prepare_epg_data ["X"] 0 ⟨[], [progA]⟩).filtered_epg_programmes
        = (if "X" ∈ ["X"] ∧ (0 : Int) < 7200 ∧ (3600 : Int) < 0 + 6 * 3600
           then [progA] else []) :=
  programme_window_membership ["X"] 0 progA "X" 3600 7200 rfl (by decide) (by decide)

/-- A bucket member after an insertion was either already there or is the
inserted value under the inserted key. -/
lemma mem_dictGet_addToBucket (m : List (String × List ProgData)) :
    ∀ (k : String) (v : ProgData) (c : String) (pd : ProgData),
      pd ∈ dictGet (addToBucket m k v) c → pd ∈ dictGet m c ∨ (c = k ∧ pd = v) := by
  induction m with
  | nil =>
    intro k v c pd h
    by_cases hkc : k = c
    · right
      refine ⟨hkc.symm, ?_⟩
      simpa [addToBucket, dictGet, hkc] using h
    · simp [addToBucket, dictGet, hkc] at h
  | cons kv rest ih =>
    obtain ⟨k1, vs⟩ := kv
    intro k v c pd h
    by_cases h1 : k1 = k
    · subst h1
      by_cases h2 : k1 = c
      · simp only [addToBucket, if_pos rfl, dictGet, if_pos h2] at h ⊢
        rcases List.mem_append.mp h with h3 | h3
        · exact Or.inl h3
        · exact Or.inr ⟨h2.symm, List.mem_singleton.mp h3⟩
      · simp only [addToBucket, if_pos rfl, dictGet, if_neg h2] at h ⊢
        exact Or.inl h
    · by_cases h2 : k1 = c
      · simp only [addToBucket, if_neg h1, dictGet, if_pos h2] at h ⊢
        exact Or.inl h
      · simp only [addToBucket, if_neg h1, dictGet, if_neg h2] at h ⊢
        exact ih k v c pd h

/-- A left fold preserves any invariant its step preserves. -/
lemma foldl_preserves {α β : Type} (f : β → α → β) (P : β → Prop)
    (hf : ∀ b a, P b → P (f b a)) :
    ∀ (l : List α) (b : β), P b → P (l.foldl f b) := by
  intro l
  induction l with
  | nil => intro b hb; exact hb
  | cons a tl ih =>
    intro b hb
    rw [List.foldl_cons]
    exact ih (f b a) (hf b a hb)

/-- One programme step preserves the invariant that every JSON dict in the
3-hour bucket map comes from a programme already in the flat 6-hour list
(`l3 ≤ l6` is what makes the 3-hour insertion imply the 6-hour one). -/
lemma progStep_sub (validIds : List String) (now l3 l6 : Int) (hl : l3 ≤ l6)
    (acc : List (String × List ProgData) × List ProgElem) (p : ProgElem)
    (h : ∀ c pd, pd ∈ dictGet acc.1 c → ∃ q ∈ acc.2, progDataOf q = some pd) :
    ∀ c pd, pd ∈ dictGet (progStep validIds now l3 l6 acc p).1 c →
      ∃ q ∈ (progStep validIds now l3 l6 acc p).2, progDataOf q = some pd := by
  intro c pd hmem
  rcases hch : p.channel with _ | prog_channel
  · simp only [progStep, hch] at hmem ⊢
    exact h c pd hmem
  · simp only [progStep, hch] at hmem ⊢
    by_cases hv : prog_channel ∈ validIds
    · simp only [if_pos hv] at hmem ⊢
      rcases hps : parse_epg_datetime p.start with _ | start_time
      · simp only [hps] at hmem ⊢
        exact h c pd hmem
      · rcases hpt : parse_epg_datetime p.stop with _ | stop_time
        · simp only [hps, hpt] at hmem ⊢
          exact h c pd hmem
        · simp only [hps, hpt] at hmem ⊢
          by_cases hnt : now < stop_time
          · simp only [if_pos hnt] at hmem ⊢
            by_cases h3 : start_time < l3
            · have h6 : start_time < l6 := lt_of_lt_of_le h3 hl
              simp only [if_pos h3, if_pos h6] at hmem ⊢
              rcases mem_dictGet_addToBucket acc.1 prog_channel _ c pd hmem with h4 | ⟨rfl, rfl⟩
              · obtain ⟨q, hq, hqd⟩ := h c pd h4
                exact ⟨q, List.mem_append_left _ hq, hqd⟩
              · refine ⟨p, List.mem_append_right _ (List.mem_singleton.mpr rfl), ?_⟩
                simp [progDataOf, hps, hpt]
            · simp only [if_neg h3] at hmem
              obtain ⟨q, hq, hqd⟩ := h c pd hmem
              by_cases h6 : start_time < l6
              · simp only [if_pos h6]
                exact ⟨q, List.mem_append_left _ hq, hqd⟩
              · simp only [if_neg h6]
                exact ⟨q, hq, hqd⟩
          · simp only [if_neg hnt] at hmem ⊢
            exact h c pd hmem
    · simp only [if_neg hv] at hmem ⊢
      exact h c pd hmem

/-- Claim C7: anything in the 3-hour bucket map corresponds to a programme
in the flat 6-hour list — membership in the 3h bucket implies membership in
the 6h result, because `start < now + 3h` implies `start < now + 6h` (the
reverse need not hold). -/
theorem bucket3h_implies_flat6h (validIds : List String) (now : Int) (root : EpgRoot)
    (c : String) (pd : ProgData)
    (h : pd ∈ dictGet (prepare_epg_data validIds now root).epg_data_3h c) :
    ∃ p ∈ (prepare_epg_data validIds now root).filtered_epg_programmes,
      progDataOf p = some pd := by
  have hl : now + 3 * 3600 ≤ now + 6 * 3600 := by omega
  have hfold := foldl_preserves (progStep validIds now (now + 3 * 3600) (now + 6 * 3600))
      (fun acc => ∀ c pd, pd ∈ dictGet acc.1 c → ∃ q ∈ acc.2, progDataOf q = some pd)
      (fun b a hb => progStep_sub validIds now _ _ hl b a hb)
      root.programmes ([], []) (by intro c2 pd2 hpd; simp [dictGet] at hpd)
  exact hfold c pd h

/-- A one-channel, one-programme EPG tree used by concrete runs. -/
def epgSample : EpgRoot := ⟨[⟨some "X", "x-meta"⟩], [progA]⟩

theorem bucket3h_implies_flat6h_witness :
    ∃ p ∈ (prepare_epg_data ["X"] 0 epgSample).filtered_epg_programmes,
      progDataOf p = some ⟨none, none, 3600, 7200⟩ :=
  bucket3h_implies_flat6h ["X"] 0 epgSample "X" ⟨none, none, 3600, 7200⟩ (by decide)

/-- One programme step preserves the invariant that every bucket key and
every flat-list programme's channel is a member of the valid-id set. -/
lemma progStep_valid (validIds : List String) (now l3 l6 : Int)
    (acc : List (String × List ProgData) × List ProgElem) (p : ProgElem)
    (h : (∀ c, dictGet acc.1 c ≠ [] → c ∈ validIds)
        ∧ ∀ q ∈ acc.2, ∃ ch, q.channel = some ch ∧ ch ∈ validIds) :
    (∀ c, dictGet (progStep validIds now l3 l6 acc p).1 c ≠ [] → c ∈ validIds)
    ∧ ∀ q ∈ (progStep validIds now l3 l6 acc p).2,
        ∃ ch, q.channel = some ch ∧ ch ∈ validIds := by
  rcases hch : p.channel with _ | prog_channel
  · simpa only [progStep, hch] using h
  · simp only [progStep, hch]
    by_cases hv : prog_channel ∈ validIds
    · simp only [if_pos hv]
      rcases hps : parse_epg_datetime p.start with _ | start_time
      · exact h
      · rcases hpt : parse_epg_datetime p.stop with _ | stop_time
        · exact h
        · by_cases hnt : now < stop_time
          · simp only [if_pos hnt]
            constructor
            · intro c hne
              by_cases h3 : start_time < l3
              · simp only [if_pos h3] at hne
                obtain ⟨pd, hpd⟩ := List.exists_mem_of_ne_nil _ hne
                rcases mem_dictGet_addToBucket acc.1 prog_channel _ c pd hpd with h4 | ⟨rfl, _⟩
                · exact h.1 c (List.ne_nil_of_mem h4)
                · exact hv
              · simp only [if_neg h3] at hne
                exact h.1 c hne
            · intro q hq
              by_cases h6 : start_time < l6
              · simp only [if_pos h6] at hq
                rcases List.mem_append.mp hq with h5 | h5
                · exact h.2 q h5
                · obtain rfl := List.mem_singleton.mp h5
                  exact ⟨prog_channel, hch, hv⟩
              · simp only [if_neg h6] at hq
                exact h.2 q hq
          · simp only [if_neg hnt]
            exact h
    · simp only [if_neg hv]
      exact h

/-- Every bucket key and every flat-6h programme channel of a filter run is
in the valid-id set. -/
lemma prepare_epg_data_valid (validIds : List String) (now : Int) (root : EpgRoot) :
    (∀ c, dictGet (prepare_epg_data validIds now root).epg_data_3h c ≠ [] → c ∈ validIds)
    ∧ ∀ q ∈ (prepare_epg_data validIds now root).filtered_epg_programmes,
        ∃ ch, q.channel = some ch ∧ ch ∈ validIds := by
  have hfold := foldl_preserves (progStep validIds now (now + 3 * 3600) (now + 6 * 3600))
      (fun acc => (∀ c, dictGet acc.1 c ≠ [] → c ∈ validIds)
        ∧ ∀ q ∈ acc.2, ∃ ch, q.channel = some ch ∧ ch ∈ validIds)
      (fun b a hb => progStep_valid validIds now _ _ b a hb)
      root.programmes ([], [])
      (by exact ⟨fun c hc => absurd rfl hc, by intro q hq; cases hq⟩)
  exact hfold

/-- Claim C10: an entry whose channel id is the empty string is treated
like one with an absent id — it is probed and, when live, kept in the valid
entry list, but the empty string never enters the valid-id set, so no guide
channel or programme whose channel attribute is empty or missing can join
any result set. -/
theorem empty_channel_id_never_joins (channels : List ChannelRec) (verdicts : List Bool)
    (now : Int) (root : EpgRoot) :
    "" ∉ (buildValidSet channels verdicts).2
    ∧ (∀ cv ∈ channels.zip verdicts, cv.2 = true →
        cv.1 ∈ (buildValidSet channels verdicts).1)
    ∧ (∀ ch ∈ (prepare_epg_data (buildValidSet channels verdicts).2 now root).filtered_epg_channels,
        ∃ i, ch.id = some i ∧ i ≠ "")
    ∧ (∀ p ∈ (prepare_epg_data (buildValidSet channels verdicts).2 now root).filtered_epg_programmes,
        ∃ c, p.channel = some c ∧ c ≠ "")
    ∧ dictGet (prepare_epg_data (buildValidSet channels verdicts).2 now root).epg_data_3h "" = [] := by
  have hempty : "" ∉ (buildValidSet channels verdicts).2 := by
    intro h
    rcases (buildValidSet_ids_mem channels verdicts "").mp h with ⟨hne, _⟩
    exact hne rfl
  have hvalid := prepare_epg_data_valid (buildValidSet channels verdicts).2 now root
  refine ⟨hempty, ?_, ?_, ?_, ?_⟩
  · intro cv hcv hv
    rw [buildValidSet_fst]
    exact List.mem_map_of_mem _ (List.mem_filter.mpr ⟨hcv, hv⟩)
  · intro ch hch
    have hmem := List.mem_filter.mp hch
    rcases hid : ch.id with _ | i
    · rw [hid] at hmem
      simp at hmem
    · rw [hid] at hmem
      simp only [decide_eq_true_eq] at hmem
      exact ⟨i, rfl, fun heq => hempty (heq ▸ hmem.2)⟩
  · intro p hp
    obtain ⟨ch, hch, hchm⟩ := hvalid.2 p hp
    exact ⟨ch, hch, fun heq => hempty (heq ▸ hchm)⟩
  · by_cases hne : dictGet (prepare_epg_data (buildValidSet channels verdicts).2 now root).epg_data_3h "" = []
    · exact hne
    · exact absurd (hvalid.1 "" hne) hempty

/-- If no channel was appended to the live list, no id was added either. -/
lemma buildValidSet_nil_ids (cs : List ChannelRec) (vs : List Bool)
    (h : (buildValidSet cs vs).1 = []) : (buildValidSet cs vs).2 = [] := by
  rw [List.eq_nil_iff_forall_not_mem]
  intro i hi
  rcases (buildValidSet_ids_mem cs vs i).mp hi with ⟨_, x, hx, _⟩
  rw [h] at hx
  cases hx

/-- With an empty valid-id set the programme step never fires. -/
lemma progStep_nilIds (now l3 l6 : Int)
    (acc : List (String × List ProgData) × List ProgElem) (p : ProgElem) :
    progStep [] now l3 l6 acc p = acc := by
  rcases hch : p.channel with _ | prog_channel
  · simp [progStep, hch]
  · simp [progStep, hch]

/-- Filtering the guide against an empty valid-id set yields empty sets. -/
lemma prepare_epg_data_nilIds (now : Int) (root : EpgRoot) :
    prepare_epg_data [] now root = ⟨[], [], []⟩ := by
  have hfold : root.programmes.foldl (progStep [] now (now + 3 * 3600) (now + 6 * 3600)) ([], [])
      = (([], []) : List (String × List ProgData) × List ProgElem) :=
    foldl_preserves _ (fun b => b = ([], []))
      (fun b a hb => by rw [hb, progStep_nilIds]) root.programmes ([], []) rfl
  have hch : root.channels.filter (fun ch =>
      match ch.id with
      | some i => decide (i ∈ ([] : List String))
      | none => false) = [] := by
    induction root.channels with
    | nil => rfl
    | cons a tl ih =>
      rw [List.filter_cons, ih]
      rcases ha : a.id with _ | i
      · simp [ha]
      · simp [ha]
  simp only [prepare_epg_data, hfold, hch]

/-- A single entry whose probe times out, so that nothing validates. -/
def cxChannel : ChannelRec :=
  ⟨"#EXTINF:-1 tvg-id=\"dead\",Dead", "http://dead/stream", "dead", "Dead", "", "general", "Dead"⟩

/-- Every probe times out. -/
def cxOutcome : String → ProbeOutcome := fun _ => .timeout

/-- Counterexample to claim C5: with one entry whose probe times out the
valid set is empty, yet the run does not abort — it still walks the guide
filter and produces the downstream outputs (an empty playlist body, the
empty guide document, an empty JSON array), rather than stopping. -/
theorem empty_valid_set_output_counterexample :
    (livenessPhase [cxChannel] cxOutcome [0]).1 = []
    ∧ mainRun (some [cxChannel]) cxOutcome [0] (some epgSample) (fun _ => 0)
        = some ⟨[], [], [], []⟩ := by decide

/-- Claim C5 as amended: when no entry passes liveness checking the run
does not treat this as terminal — it proceeds through the guide filter with
an empty valid-id set and emits outputs all of whose components are empty
(header-only playlist, empty guide document, empty catalog). -/
theorem empty_valid_set_run_proceeds (channels : List ChannelRec)
    (outcome : String → ProbeOutcome) (sched : List Nat)
    (epg_root : Option EpgRoot) (clock : Nat → Int)
    (h : (livenessPhase channels outcome sched).1 = []) :
    mainRun (some channels) outcome sched epg_root clock = some ⟨[], [], [], []⟩ := by
  have hids : (livenessPhase channels outcome sched).2 = [] :=
    buildValidSet_nil_ids channels (checkPhase channels outcome sched) h
  have hlv : livenessPhase channels outcome sched = ([], []) := Prod.ext h hids
  cases epg_root with
  | none => simp [mainRun, mainAfterParse, hlv]
  | some root => simp [mainRun, mainAfterParse, hlv, prepare_epg_data_nilIds]

theorem empty_valid_set_run_proceeds_witness :
    mainRun (some [cxChannel]) cxOutcome [0] none (fun _ => 1) = some ⟨[], [], [], []⟩ :=
  empty_valid_set_run_proceeds [cxChannel] cxOutcome [0] none (fun _ => 1) (by decide)

/-- Claim C8: the guide filter is deterministic in the captured instant:
the output depends on the ambient clock stream only through the single
read `clock 0` taken before filtering (line 171) — no record comparison
reads the current time again, so two runs whose clocks agree on that one
read produce identical outputs whatever the clocks later return. -/
theorem guide_filter_single_time_read (channels : List ChannelRec)
    (outcome : String → ProbeOutcome) (sched : List Nat) (epg_root : Option EpgRoot)
    (clock1 clock2 : Nat → Int) (h : clock1 0 = clock2 0) :
    mainAfterParse channels outcome sched epg_root clock1
      = mainAfterParse channels outcome sched epg_root clock2 := by
  unfold mainAfterParse
  rw [h]

theorem guide_filter_single_time_read_witness :
    mainAfterParse [cxChannel] cxOutcome [0] (some epgSample) (fun _ => 0)
      = mainAfterParse [cxChannel] cxOutcome [0] (some epgSample) (fun n => (n : Int) * 5) :=
  guide_filter_single_time_read [cxChannel] cxOutcome [0] (some epgSample)
    (fun _ => 0) (fun n => (n : Int) * 5) (by decide)

/-- Claim C9: when only the guide feed fails (`epg_root = none`), the run
still proceeds and emits guide-free outputs: the filtered playlist of live
channels is produced as usual, the emitted guide document is empty, and
every JSON entry's programme bucket defaults to the empty sequence. -/
theorem guide_failure_graceful (channels : List ChannelRec)
    (outcome : String → ProbeOutcome) (sched : List Nat) (clock : Nat → Int) :
    (mainRun (some channels) outcome sched none clock).isSome = true
    ∧ mainAfterParse channels outcome sched none clock
        = ⟨(livenessPhase channels outcome sched).1.map (fun ch => (ch.info, ch.url)),
           [], [],
           (livenessPhase channels outcome sched).1.map (fun ch =>
             ⟨ch.name, ch.url, ch.tvg_id, ch.tvg_name, ch.tvg_logo, ch.group_title, []⟩)⟩ :=
  ⟨rfl, rfl⟩
